import Mathlib

/- Verification of the kinematic character controller movement core from
   `src/movement.rs`: the Quake-style friction/acceleration model, the
   walkable-slope ground classifier, and the per-tick `movement` system body.
   Real-number arithmetic models the source's f32 arithmetic. The
   `move_and_slide` and `character_sweep` collaborators live outside this
   module; following the design document's interface contract, their outputs
   (the contact-callback hit stream, the slide result, the probe result) are
   oracle inputs to the tick function. -/

open scoped Classical

set_option maxHeartbeats 1000000

noncomputable section

/-- 3D vector with real components, modelling `glam`'s `Vec3`. -/
@[ext]
structure Vec3 where
  x : ℝ
  y : ℝ
  z : ℝ

namespace Vec3

def add (a b : Vec3) : Vec3 := ⟨a.x + b.x, a.y + b.y, a.z + b.z⟩

def sub (a b : Vec3) : Vec3 := ⟨a.x - b.x, a.y - b.y, a.z - b.z⟩

def smul (c : ℝ) (a : Vec3) : Vec3 := ⟨c * a.x, c * a.y, c * a.z⟩

def neg (a : Vec3) : Vec3 := ⟨-a.x, -a.y, -a.z⟩

instance : Add Vec3 := ⟨add⟩

instance : Sub Vec3 := ⟨sub⟩

instance : Neg Vec3 := ⟨neg⟩

instance : SMul ℝ Vec3 := ⟨smul⟩

instance : Zero Vec3 := ⟨⟨0, 0, 0⟩⟩

@[simp] theorem add_x (a b : Vec3) : (a + b).x = a.x + b.x := rfl

@[simp] theorem add_y (a b : Vec3) : (a + b).y = a.y + b.y := rfl

@[simp] theorem add_z (a b : Vec3) : (a + b).z = a.z + b.z := rfl

@[simp] theorem sub_x (a b : Vec3) : (a - b).x = a.x - b.x := rfl

@[simp] theorem sub_y (a b : Vec3) : (a - b).y = a.y - b.y := rfl

@[simp] theorem sub_z (a b : Vec3) : (a - b).z = a.z - b.z := rfl

@[simp] theorem smul_x (c : ℝ) (a : Vec3) : (c • a).x = c * a.x := rfl

@[simp] theorem smul_y (c : ℝ) (a : Vec3) : (c • a).y = c * a.y := rfl

@[simp] theorem smul_z (c : ℝ) (a : Vec3) : (c • a).z = c * a.z := rfl

@[simp] theorem zero_x : (0 : Vec3).x = 0 := rfl

@[simp] theorem zero_y : (0 : Vec3).y = 0 := rfl

@[simp] theorem zero_z : (0 : Vec3).z = 0 := rfl

/-- `Vec3::dot`. -/
def dot (a b : Vec3) : ℝ := a.x * b.x + a.y * b.y + a.z * b.z

/-- `Vec3::cross`. -/
def cross (a b : Vec3) : Vec3 :=
  ⟨a.y * b.z - a.z * b.y, a.z * b.x - a.x * b.z, a.x * b.y - a.y * b.x⟩

/-- `Vec3::length_squared` (`self.dot(self)`). -/
def lengthSquared (a : Vec3) : ℝ := a.dot a

/-- `Vec3::length`. -/
def length (a : Vec3) : ℝ := Real.sqrt a.lengthSquared

/-- `Vec3::normalize_or_zero`: the normalized vector, or zero when the vector
    has no direction (over ℝ, exactly when it is zero). -/
def normalizeOrZero (v : Vec3) : Vec3 :=
  if v = 0 then 0 else (1 / v.length) • v

/-- `Vec3::reject_from_normalized`: `self - onto * self.dot(onto)`. -/
def rejectFromNormalized (v onto : Vec3) : Vec3 := v - (v.dot onto) • onto

theorem lengthSquared_nonneg (a : Vec3) : 0 ≤ a.lengthSquared := by
  unfold lengthSquared dot
  have hx := mul_self_nonneg a.x
  have hy := mul_self_nonneg a.y
  have hz := mul_self_nonneg a.z
  linarith

theorem lengthSquared_eq_zero_iff (a : Vec3) : a.lengthSquared = 0 ↔ a = 0 := by
  constructor
  · intro h
    unfold lengthSquared dot at h
    have hx := mul_self_nonneg a.x
    have hy := mul_self_nonneg a.y
    have hz := mul_self_nonneg a.z
    ext
    · exact mul_self_eq_zero.mp (by linarith)
    · exact mul_self_eq_zero.mp (by linarith)
    · exact mul_self_eq_zero.mp (by linarith)
  · intro h
    subst h
    unfold lengthSquared dot
    norm_num

theorem lengthSquared_pos_of_ne_zero {a : Vec3} (h : a ≠ 0) : 0 < a.lengthSquared :=
  lt_of_le_of_ne (lengthSquared_nonneg a)
    (fun h0 => h ((lengthSquared_eq_zero_iff a).mp h0.symm))

theorem length_nonneg (a : Vec3) : 0 ≤ a.length := Real.sqrt_nonneg _

theorem length_pos_of_ne_zero {a : Vec3} (h : a ≠ 0) : 0 < a.length :=
  Real.sqrt_pos.mpr (lengthSquared_pos_of_ne_zero h)

theorem length_sq (a : Vec3) : a.length ^ 2 = a.lengthSquared :=
  Real.sq_sqrt (lengthSquared_nonneg a)

theorem lengthSquared_smul (c : ℝ) (a : Vec3) :
    (c • a).lengthSquared = c ^ 2 * a.lengthSquared := by
  unfold lengthSquared dot
  simp
  ring

theorem length_smul (c : ℝ) (a : Vec3) : (c • a).length = |c| * a.length := by
  unfold length
  rw [lengthSquared_smul, Real.sqrt_mul (sq_nonneg c), Real.sqrt_sq_eq_abs]

theorem add_dot (a b c : Vec3) : (a + b).dot c = a.dot c + b.dot c := by
  unfold dot
  simp
  ring

theorem sub_dot (a b c : Vec3) : (a - b).dot c = a.dot c - b.dot c := by
  unfold dot
  simp
  ring

theorem smul_dot (r : ℝ) (a b : Vec3) : (r • a).dot b = r * a.dot b := by
  unfold dot
  simp
  ring

theorem dot_self (a : Vec3) : a.dot a = a.lengthSquared := rfl

theorem lengthSquared_eq_one_of_length_eq_one {a : Vec3} (h : a.length = 1) :
    a.lengthSquared = 1 := by
  rw [← length_sq, h]
  norm_num

end Vec3

/-- `Dir3::new` / the `TryInto<Dir3>` conversion used by `accelerate`:
    normalize, failing on a vector with no direction (over ℝ, exactly the
    zero vector; the non-finite failure cases of f32 do not arise). -/
def dir3New (v : Vec3) : Option Vec3 :=
  if v = 0 then none else some ((1 / v.length) • v)

theorem dir3New_isSome_of_ne_zero {v : Vec3} (h : v ≠ 0) :
    (dir3New v).isSome = true := by
  unfold dir3New
  rw [if_neg h]
  rfl

theorem dir3New_eq_some_of_ne_zero {v : Vec3} (h : v ≠ 0) :
    dir3New v = some ((1 / v.length) • v) := by
  unfold dir3New
  rw [if_neg h]

theorem dir3New_unit {v u : Vec3} (h : dir3New v = some u) : u.length = 1 := by
  unfold dir3New at h
  by_cases hv : v = 0
  · rw [if_pos hv] at h
    exact absurd h (by simp)
  · rw [if_neg hv] at h
    have hu : u = (1 / v.length) • v := (Option.some_injective _ h).symm
    have hlen : 0 < v.length := Vec3.length_pos_of_ne_zero hv
    rw [hu, Vec3.length_smul]
    rw [abs_of_pos (by positivity)]
    field_simp

theorem normalizeOrZero_of_ne_zero {v : Vec3} (h : v ≠ 0) :
    Vec3.normalizeOrZero v = (1 / v.length) • v := by
  unfold Vec3.normalizeOrZero
  rw [if_neg h]

/-- Quaternion with components (x, y, z, w), modelling `glam`'s `Quat`. -/
structure Quat where
  x : ℝ
  y : ℝ
  z : ℝ
  w : ℝ

/-- Squared norm of a quaternion (1 for a valid rotation). -/
def Quat.normSq (q : Quat) : ℝ := q.x * q.x + q.y * q.y + q.z * q.z + q.w * q.w

/-- `Quat::mul_vec3`, the rotation action `rotation * v` used at line 92 of
    `movement.rs`: with `b` the vector part,
    `v * (w^2 - b.dot b) + b * (2 * v.dot b) + (b.cross v) * (2 * w)`. -/
def quatMulVec3 (q : Quat) (v : Vec3) : Vec3 :=
  let b : Vec3 := ⟨q.x, q.y, q.z⟩
  ((q.w * q.w - b.dot b) • v) + ((2 * v.dot b) • b) + ((2 * q.w) • Vec3.cross b v)

/-- Tuning constants from `movement.rs` (lines 53-59). -/
def EXAMPLE_MOVEMENT_SPEED : ℝ := 8

/-- `EXAMPLE_FLOOR_ACCELERATION` from `movement.rs`. -/
def EXAMPLE_FLOOR_ACCELERATION : ℝ := 100

/-- `EXAMPLE_AIR_ACCELERATION` from `movement.rs`. -/
def EXAMPLE_AIR_ACCELERATION : ℝ := 40

/-- `EXAMPLE_FRICTION` from `movement.rs`. -/
def EXAMPLE_FRICTION : ℝ := 60

/-- `EXAMPLE_WALKABLE_ANGLE` from `movement.rs` (`PI / 4.0`). -/
def EXAMPLE_WALKABLE_ANGLE : ℝ := Real.pi / 4

/-- `EXAMPLE_JUMP_IMPULSE` from `movement.rs`. -/
def EXAMPLE_JUMP_IMPULSE : ℝ := 6

/-- `EXAMPLE_GRAVITY` from `movement.rs`. -/
def EXAMPLE_GRAVITY : ℝ := 20

/-- `apply_friction` from `movement.rs` (lines 238-250): exact exponential
    decay; `none` when `speed_sq < 1e-4`. The single `new_velocity` field of
    `ApplyFrictionResult` is returned directly. -/
def apply_friction (velocity : Vec3) (friction delta : ℝ) : Option Vec3 :=
  let speed_sq := velocity.lengthSquared
  if speed_sq < 1e-4 then none
  else some (Real.exp (-friction / Real.sqrt speed_sq * delta) • velocity)

/-- `accelerate` from `movement.rs` (lines 206-231); `direction.try_into()`
    is `dir3New`, and the single `new_velocity` field of `AccelerateResult`
    is returned directly. -/
def accelerate (velocity direction : Vec3) (max_acceleration target_speed delta : ℝ) :
    Option Vec3 :=
  match dir3New direction with
  | none => none
  | some d =>
    let current_speed := velocity.dot d
    if current_speed ≥ target_speed then none
    else some (velocity + min (target_speed - current_speed) (max_acceleration * delta) • d)

/-- The part of Avian's `ShapeHitData` that `movement` reads. -/
structure ShapeHitData where
  normal1 : Vec3

/-- `Vec3::angle_between` from `glam`:
    `acos(self.dot(rhs) / sqrt(self.length_squared() * rhs.length_squared()))`. -/
def angle_between (a b : Vec3) : ℝ :=
  Real.arccos (a.dot b / Real.sqrt (a.lengthSquared * b.lengthSquared))

/-- The angle between two vectors as the design document states it:
    `acos(dot / (|a| * |b|))`. -/
def angleBetweenSpec (a b : Vec3) : ℝ :=
  Real.arccos (a.dot b / (a.length * b.length))

theorem angle_between_eq_spec (a b : Vec3) : angle_between a b = angleBetweenSpec a b := by
  unfold angle_between angleBetweenSpec Vec3.length
  rw [Real.sqrt_mul (Vec3.lengthSquared_nonneg a)]

/-- The `is_walkable` closure from `movement` (lines 151-154). -/
def is_walkable (up : Vec3) (hit : ShapeHitData) : Prop :=
  angle_between up hit.normal1 < EXAMPLE_WALKABLE_ANGLE

/-- Per-character state acted on by one `movement` iteration: the entity
    transform's translation together with the `Character` component fields
    (`velocity`, `floor`, `up`). -/
structure KCCState where
  translation : Vec3
  velocity : Vec3
  floor : Option Vec3
  up : Vec3

/-- The per-tick external data `movement` consumes for one character: the
    input snapshot, the camera rotation, the tick delta, and the outcomes of
    the scene-query collaborators (`move_and_slide`'s callback hit stream
    and optional result, `character_sweep`'s optional probe result), which
    this embedding treats as oracles per the interface contract. -/
structure TickInputs where
  jumpFired : Bool
  inputVec : ℝ × ℝ
  camRot : Quat
  dt : ℝ
  slideHits : List ShapeHitData
  slideResult : Option (Vec3 × Vec3)
  probeResult : Option (ℝ × ShapeHitData)

/-- Lines 80-86: jump impulse plus the optimistic airborne transition. -/
def jumpStep (jumpFired : Bool) (s : KCCState) : KCCState :=
  if jumpFired && s.floor.isSome then
    { s with velocity := s.velocity + EXAMPLE_JUMP_IMPULSE • s.up, floor := none }
  else s

/-- Lines 88-93: rotate the raw 2D input `(x, 0, -y)` by the camera rotation
    to obtain the movement direction. -/
def rawDirection (camRot : Quat) (inputVec : ℝ × ℝ) : Vec3 :=
  quatMulVec3 camRot ⟨inputVec.1, 0, -inputVec.2⟩

/-- Lines 103-105: remove the velocity component pointing into the floor
    (`velocity -= floor_normal * min(velocity.dot(normal), 0)`). -/
def clampDownward (v n : Vec3) : Vec3 := v - min (v.dot n) 0 • n

/-- Lines 95-123: regime selection on last tick's `floor`. Returns the
    updated velocity, the (possibly floor-projected) direction, and the
    acceleration cap for this tick. -/
def regimeStep (s : KCCState) (direction : Vec3) (dt : ℝ) : Vec3 × Vec3 × ℝ :=
  match s.floor with
  | some floorNormal =>
    let v1 := (apply_friction s.velocity EXAMPLE_FRICTION dt).getD s.velocity
    let v2 := clampDownward v1 floorNormal
    let dir := Vec3.normalizeOrZero (Vec3.rejectFromNormalized direction floorNormal)
    (v2, dir, EXAMPLE_FLOOR_ACCELERATION)
  | none =>
    (s.velocity + (-EXAMPLE_GRAVITY * dt) • s.up, direction, EXAMPLE_AIR_ACCELERATION)

/-- Lines 167-171: the body of the `move_and_slide` contact callback. -/
def slideStep (up : Vec3) (floor : Option Vec3) (hit : ShapeHitData) : Option Vec3 :=
  if is_walkable up hit then dir3New hit.normal1 else floor

/-- The `floor` local recorded by the callback over the hits reported during
    the slide (starts `None`; the last walkable contact wins). -/
def slideFloorFold (up : Vec3) (hits : List ShapeHitData) : Option Vec3 :=
  hits.foldl (slideStep up) none

/-- Line 179: the guard of the ground-retention fallback
    (`character.floor.is_some() && floor.is_none()`). -/
def probeRunsCond (charFloor floorSlide : Option Vec3) : Bool :=
  charFloor.isSome && floorSlide.isNone

/-- Lines 179-195, `floor` part: the floor after the fallback probe. -/
def probeFloor (up : Vec3) (charFloor : Option Vec3)
    (probeResult : Option (ℝ × ShapeHitData)) (floorSlide : Option Vec3) : Option Vec3 :=
  if probeRunsCond charFloor floorSlide then
    match probeResult with
    | some dh => if is_walkable up dh.2 then dir3New dh.2.normal1 else floorSlide
    | none => floorSlide
  else floorSlide

/-- Lines 179-195, translation part: snap down by the probe's hit distance
    when the probe finds a walkable surface. -/
def probeSnap (up : Vec3) (charFloor : Option Vec3)
    (probeResult : Option (ℝ × ShapeHitData)) (translation : Vec3)
    (floorSlide : Option Vec3) : Vec3 :=
  if probeRunsCond charFloor floorSlide then
    match probeResult with
    | some dh => if is_walkable up dh.2 then translation - dh.1 • up else translation
    | none => translation
  else translation

/-- Whether the fallback downward probe (the `character_sweep` call at lines
    180-188) executes this tick. -/
def probeRuns (inp : TickInputs) (s0 : KCCState) : Bool :=
  probeRunsCond (jumpStep inp.jumpFired s0).floor
    (slideFloorFold (jumpStep inp.jumpFired s0).up inp.slideHits)

/-- One iteration of the `movement` system body (lines 80-197) for one
    character. -/
def movementTick (inp : TickInputs) (s0 : KCCState) : KCCState :=
  let s1 := jumpStep inp.jumpFired s0
  let direction := rawDirection inp.camRot inp.inputVec
  let r := regimeStep s1 direction inp.dt
  let v3 := (accelerate r.1 r.2.1 r.2.2 EXAMPLE_MOVEMENT_SPEED inp.dt).getD r.1
  let floorSlide := slideFloorFold s1.up inp.slideHits
  let trv : Vec3 × Vec3 :=
    match inp.slideResult with
    | some res => res
    | none => (s1.translation, v3)
  { translation := probeSnap s1.up s1.floor inp.probeResult trv.1 floorSlide
    velocity := trv.2
    floor := probeFloor s1.up s1.floor inp.probeResult floorSlide
    up := s1.up }

theorem jumpStep_up (b : Bool) (s : KCCState) : (jumpStep b s).up = s.up := by
  unfold jumpStep
  split <;> rfl

theorem jumpStep_translation (b : Bool) (s : KCCState) :
    (jumpStep b s).translation = s.translation := by
  unfold jumpStep
  split <;> rfl

theorem movementTick_floor (inp : TickInputs) (s0 : KCCState) :
    (movementTick inp s0).floor =
      probeFloor s0.up (jumpStep inp.jumpFired s0).floor inp.probeResult
        (slideFloorFold s0.up inp.slideHits) := by
  show probeFloor (jumpStep inp.jumpFired s0).up (jumpStep inp.jumpFired s0).floor
    inp.probeResult (slideFloorFold (jumpStep inp.jumpFired s0).up inp.slideHits) = _
  rw [jumpStep_up]

theorem clampDownward_dot_nonneg {n : Vec3} (hn : n.length = 1) (v : Vec3) :
    0 ≤ (clampDownward v n).dot n := by
  unfold clampDownward
  rw [Vec3.sub_dot, Vec3.smul_dot, Vec3.dot_self,
    Vec3.lengthSquared_eq_one_of_length_eq_one hn, mul_one]
  rcases le_total (v.dot n) 0 with h | h
  · rw [min_eq_left h]
    linarith
  · rw [min_eq_right h]
    linarith

theorem length_unitY : (Vec3.mk 0 1 0).length = 1 := by
  unfold Vec3.length Vec3.lengthSquared Vec3.dot
  norm_num

theorem Vec3.ne_zero_of_y {a : Vec3} (h : a.y ≠ 0) : a ≠ 0 :=
  fun h0 => h (by rw [h0]; rfl)

/-- C3: `apply_friction` returns none exactly when the squared speed is below
    `1e-4`, equivalently when the speed is below `0.01`; otherwise it returns
    `velocity * exp(-friction / |velocity| * dt)`, the exact
    exponential-decay solution. -/
theorem C3_apply_friction_spec (v : Vec3) (friction dt : ℝ) :
    (apply_friction v friction dt = none ↔ v.lengthSquared < 1e-4) ∧
    (v.lengthSquared < 1e-4 ↔ v.length < 0.01) ∧
    (¬ v.lengthSquared < 1e-4 →
      apply_friction v friction dt =
        some (Real.exp (-friction / v.length * dt) • v)) := by
  refine ⟨?_, ?_, ?_⟩
  · simp only [apply_friction]
    by_cases h : v.lengthSquared < 1e-4
    · rw [if_pos h]
      simp [h]
    · rw [if_neg h]
      simp [h]
  · have hs : v.length < 0.01 ↔ v.lengthSquared < 0.01 ^ 2 := by
      unfold Vec3.length
      exact Real.sqrt_lt' (by norm_num)
    rw [hs]
    norm_num
  · intro h
    simp only [apply_friction]
    rw [if_neg h]
    rfl

/-- Witness for C3 at a concrete input away from the dead-zone. -/
theorem C3_witness :
    apply_friction ⟨1, 0, 0⟩ 60 1 =
      some (Real.exp (-60 / (Vec3.mk 1 0 0).length * 1) • ⟨1, 0, 0⟩) :=
  (C3_apply_friction_spec ⟨1, 0, 0⟩ 60 1).2.2 (by
    unfold Vec3.lengthSquared Vec3.dot
    norm_num)

/-- C4: for `friction, dt ≥ 0`, `apply_friction` never increases speed, with
    equality exactly when `friction = 0` or `dt = 0`. -/
theorem C4_friction_nonincreasing (v r : Vec3) (friction dt : ℝ)
    (hf : 0 ≤ friction) (hdt : 0 ≤ dt)
    (h : apply_friction v friction dt = some r) :
    r.length ≤ v.length ∧ (r.length = v.length ↔ friction = 0 ∨ dt = 0) := by
  simp only [apply_friction] at h
  by_cases hlt : v.lengthSquared < 1e-4
  · rw [if_pos hlt] at h
    exact absurd h (by simp)
  · rw [if_neg hlt] at h
    have hr : r = Real.exp (-friction / Real.sqrt v.lengthSquared * dt) • v :=
      (Option.some_injective _ h).symm
    have hsq : (1e-4 : ℝ) ≤ v.lengthSquared := not_lt.mp hlt
    have hpos : 0 < v.lengthSquared := lt_of_lt_of_le (by norm_num) hsq
    have hlenpos : 0 < v.length := Real.sqrt_pos.mpr hpos
    have hsqrt : Real.sqrt v.lengthSquared = v.length := rfl
    rw [hsqrt] at hr
    set t := -friction / v.length * dt with ht
    have hrlen : r.length = Real.exp t * v.length := by
      rw [hr, Vec3.length_smul, abs_of_pos (Real.exp_pos t)]
    have htle : t ≤ 0 := by
      have h1 : 0 ≤ friction / v.length * dt :=
        mul_nonneg (div_nonneg hf hlenpos.le) hdt
      have h2 : t = -(friction / v.length * dt) := by rw [ht]; ring
      linarith
    constructor
    · rw [hrlen]
      calc Real.exp t * v.length ≤ 1 * v.length :=
            mul_le_mul_of_nonneg_right (Real.exp_le_one_iff.mpr htle) (Vec3.length_nonneg v)
        _ = v.length := one_mul _
    · rw [hrlen]
      constructor
      · intro heq
        have hexp1 : Real.exp t = 1 := by
          have heq2 : Real.exp t * v.length = 1 * v.length := by rw [one_mul]; exact heq
          exact mul_right_cancel₀ (ne_of_gt hlenpos) heq2
        have ht0 : t = 0 := (Real.exp_eq_one_iff t).mp hexp1
        have hmul : friction / v.length * dt = 0 := by
          have h2 : -(friction / v.length * dt) = 0 := by rw [← ht0, ht]; ring
          linarith
        rcases mul_eq_zero.mp hmul with h1 | h1
        · rcases div_eq_zero_iff.mp h1 with h2 | h2
          · exact Or.inl h2
          · exact absurd h2 (ne_of_gt hlenpos)
        · exact Or.inr h1
      · intro hor
        have ht0 : t = 0 := by
          rw [ht]
          rcases hor with h1 | h1 <;> rw [h1] <;> ring
        rw [ht0, Real.exp_zero, one_mul]

/-- Witness for C4 at `friction = 0`: the speed is exactly preserved. -/
theorem C4_witness :
    (Vec3.mk 1 0 0).length ≤ (Vec3.mk 1 0 0).length ∧
    ((Vec3.mk 1 0 0).length = (Vec3.mk 1 0 0).length ↔ (0 : ℝ) = 0 ∨ (1 : ℝ) = 0) :=
  C4_friction_nonincreasing ⟨1, 0, 0⟩ ⟨1, 0, 0⟩ 0 1 le_rfl zero_le_one (by
    have h1 : ¬ (Vec3.mk 1 0 0).lengthSquared < 1e-4 := by
      unfold Vec3.lengthSquared Vec3.dot
      norm_num
    simp only [apply_friction]
    rw [if_neg h1]
    have h2 : -(0 : ℝ) / Real.sqrt (Vec3.mk 1 0 0).lengthSquared * 1 = 0 := by
      simp
    rw [h2, Real.exp_zero]
    congr 1
    ext <;> simp)

/-- C5: `accelerate` returns none exactly when the direction cannot be
    normalized (zero input) or the projected current speed along the
    normalized direction is at or above the target speed. -/
theorem C5_accelerate_none_iff (v d : Vec3) (a t dt : ℝ) :
    accelerate v d a t dt = none ↔
      d = 0 ∨ t ≤ v.dot (Vec3.normalizeOrZero d) := by
  by_cases hd : d = 0
  · simp only [accelerate, dir3New, if_pos hd]
    simp [hd]
  · have hsome := dir3New_eq_some_of_ne_zero hd
    simp only [accelerate, hsome]
    rw [normalizeOrZero_of_ne_zero hd]
    by_cases hc : v.dot ((1 / d.length) • d) ≥ t
    · rw [if_pos hc]
      exact ⟨fun _ => Or.inr hc, fun _ => rfl⟩
    · rw [if_neg hc]
      constructor
      · intro hcontra
        exact absurd hcontra (by simp)
      · intro hor
        rcases hor with h1 | h1
        · exact absurd h1 hd
        · exact absurd h1 hc

/-- C6: when `accelerate` returns a new velocity, it adds exactly
    `min(target - current, max_accel * dt)` along the normalized direction,
    and the new speed along that direction never exceeds the target. -/
theorem C6_accelerate_capped (v d r : Vec3) (a t dt : ℝ)
    (ha : 0 ≤ a) (hdt : 0 ≤ dt)
    (h : accelerate v d a t dt = some r) :
    r = v + min (t - v.dot (Vec3.normalizeOrZero d)) (a * dt) • Vec3.normalizeOrZero d ∧
    r.dot (Vec3.normalizeOrZero d) ≤ t := by
  by_cases hd : d = 0
  · simp only [accelerate, dir3New, if_pos hd] at h
    exact absurd h (by simp)
  · have hsome := dir3New_eq_some_of_ne_zero hd
    simp only [accelerate, hsome] at h
    set u := (1 / d.length) • d with hu
    by_cases hc : v.dot u ≥ t
    · rw [if_pos hc] at h
      exact absurd h (by simp)
    · rw [if_neg hc] at h
      have hr : r = v + min (t - v.dot u) (a * dt) • u := (Option.some_injective _ h).symm
      have hnorm : Vec3.normalizeOrZero d = u := normalizeOrZero_of_ne_zero hd
      have huu : u.dot u = 1 := by
        have hul : u.length = 1 := dir3New_unit (v := d) (by rw [hsome])
        rw [Vec3.dot_self, Vec3.lengthSquared_eq_one_of_length_eq_one hul]
      refine ⟨by rw [hnorm, hr], ?_⟩
      rw [hnorm, hr, Vec3.add_dot, Vec3.smul_dot, huu, mul_one]
      have hmin : min (t - v.dot u) (a * dt) ≤ t - v.dot u := min_le_left _ _
      linarith

/-- Witness for C6: accelerating from rest along the up axis. -/
theorem C6_witness :
    (Vec3.mk 0 1 0) =
      (0 : Vec3) + min ((1 : ℝ) - Vec3.dot 0 (Vec3.normalizeOrZero ⟨0, 1, 0⟩)) (1 * 1) •
        Vec3.normalizeOrZero ⟨0, 1, 0⟩ ∧
    Vec3.dot ⟨0, 1, 0⟩ (Vec3.normalizeOrZero ⟨0, 1, 0⟩) ≤ 1 :=
  C6_accelerate_capped 0 ⟨0, 1, 0⟩ ⟨0, 1, 0⟩ 1 1 1 zero_le_one zero_le_one (by
    have hd : (⟨0, 1, 0⟩ : Vec3) ≠ 0 := Vec3.ne_zero_of_y (by norm_num)
    have hu : (1 / (Vec3.mk 0 1 0).length) • (Vec3.mk 0 1 0) = ⟨0, 1, 0⟩ := by
      rw [length_unitY]
      ext <;> simp
    have hdot : Vec3.dot 0 ⟨0, 1, 0⟩ = 0 := by
      unfold Vec3.dot
      simp
    simp only [accelerate, dir3New_eq_some_of_ne_zero hd, hu]
    rw [if_neg (by rw [hdot]; norm_num)]
    congr 1
    ext <;> simp [hdot, Vec3.dot])

/-- C7: on a grounded tick, immediately after the downward-velocity clamp
    and before `accelerate` is called, the velocity has no component into
    the floor normal. -/
theorem C7_no_velocity_into_floor (s : KCCState) (n direction : Vec3) (dt : ℝ)
    (hfloor : s.floor = some n) (hn : n.length = 1) :
    0 ≤ ((regimeStep s direction dt).1).dot n := by
  simp only [regimeStep, hfloor]
  exact clampDownward_dot_nonneg hn _

/-- Witness for C7 on a flat floor. -/
theorem C7_witness :
    0 ≤ ((regimeStep (KCCState.mk 0 0 (some ⟨0, 1, 0⟩) ⟨0, 1, 0⟩) 0 1).1).dot ⟨0, 1, 0⟩ :=
  C7_no_velocity_into_floor (KCCState.mk 0 0 (some ⟨0, 1, 0⟩) ⟨0, 1, 0⟩) ⟨0, 1, 0⟩ 0 1
    rfl length_unitY

/-- C9: `is_walkable` holds iff the angle between `up` and the contact
    normal is strictly below the configured walkable angle; at or above the
    threshold it fails (exclusive boundary). -/
theorem C9_is_walkable_iff (up : Vec3) (hit : ShapeHitData) :
    (is_walkable up hit ↔ angleBetweenSpec up hit.normal1 < EXAMPLE_WALKABLE_ANGLE) ∧
    (EXAMPLE_WALKABLE_ANGLE ≤ angleBetweenSpec up hit.normal1 → ¬ is_walkable up hit) := by
  unfold is_walkable
  rw [angle_between_eq_spec]
  exact ⟨Iff.rfl, fun h => not_lt.mpr h⟩

/-- Witness for C9: a vertical wall (angle π/2) is not walkable. -/
theorem C9_witness : ¬ is_walkable ⟨0, 1, 0⟩ ⟨⟨1, 0, 0⟩⟩ :=
  (C9_is_walkable_iff ⟨0, 1, 0⟩ ⟨⟨1, 0, 0⟩⟩).2 (by
    unfold angleBetweenSpec Vec3.dot EXAMPLE_WALKABLE_ANGLE
    norm_num [Real.arccos_zero]
    linarith [Real.pi_pos])

/-- C1: `movement` rotates the input by the camera's full rotation, not only
    its yaw. For the valid (unit) pure-pitch camera rotation with quaternion
    components `(x, y, z, w) = (4/5, 0, 0, 3/5)` — a rotation about the X
    axis, whose yaw is zero — and move input `(0, 1)`, the derived direction
    is `(0, 24/25, 7/25)`: it has a nonzero vertical component, so it does
    not lie in the horizontal plane that a yaw-only rotation of `(0, 0, -1)`
    would produce. -/
theorem C1_direction_vertical_component :
    Quat.normSq ⟨4 / 5, 0, 0, 3 / 5⟩ = 1 ∧
    rawDirection ⟨4 / 5, 0, 0, 3 / 5⟩ (0, 1) = ⟨0, 24 / 25, 7 / 25⟩ ∧
    (rawDirection ⟨4 / 5, 0, 0, 3 / 5⟩ (0, 1)).y ≠ 0 := by
  refine ⟨by unfold Quat.normSq; norm_num, ?_, ?_⟩
  · unfold rawDirection quatMulVec3 Vec3.dot Vec3.cross
    ext <;> simp <;> norm_num
  · unfold rawDirection quatMulVec3 Vec3.dot Vec3.cross
    simp

/-- C2 (amended): the fallback downward probe executes iff footing was `Some`
    at tick start, no jump consumed it this tick, and the slide callback
    recorded no walkable contact; in particular it never executes when the
    character started the tick airborne. -/
theorem C2_probe_guard (inp : TickInputs) (s0 : KCCState) :
    probeRuns inp s0 = true ↔
      s0.floor.isSome = true ∧ inp.jumpFired = false ∧
        slideFloorFold s0.up inp.slideHits = none := by
  unfold probeRuns probeRunsCond
  rw [jumpStep_up]
  cases hj : inp.jumpFired with
  | false =>
    have hns : jumpStep false s0 = s0 := by
      unfold jumpStep
      simp
    rw [hns]
    simp [Option.isNone_iff_eq_none]
  | true =>
    have hfl : (jumpStep true s0).floor.isSome = false := by
      unfold jumpStep
      cases hf : s0.floor <;> simp [hf]
    rw [hfl]
    simp

/-- C2 counterexample: a tick that starts grounded with a jump fired and no
    walkable slide contact; footing was `Some` at tick start and the slide
    recorded no walkable contact, yet the probe does not execute — refuting
    the claimed iff at this input. -/
theorem C2_counterexample :
    (KCCState.mk 0 0 (some ⟨0, 1, 0⟩) ⟨0, 1, 0⟩).floor.isSome = true ∧
    slideFloorFold (KCCState.mk 0 0 (some ⟨0, 1, 0⟩) ⟨0, 1, 0⟩).up
      (TickInputs.mk true (0, 0) ⟨0, 0, 0, 1⟩ 1 [] none none).slideHits = none ∧
    probeRuns (TickInputs.mk true (0, 0) ⟨0, 0, 0, 1⟩ 1 [] none none)
      (KCCState.mk 0 0 (some ⟨0, 1, 0⟩) ⟨0, 1, 0⟩) = false :=
  ⟨rfl, rfl, rfl⟩

theorem slideFold_eq_some (up : Vec3) (hits : List ShapeHitData) (acc : Option Vec3)
    (n : Vec3) (h : hits.foldl (slideStep up) acc = some n) :
    (∃ hit ∈ hits, is_walkable up hit ∧ dir3New hit.normal1 = some n) ∨ acc = some n := by
  induction hits generalizing acc with
  | nil => exact Or.inr h
  | cons hit rest ih =>
    rw [List.foldl_cons] at h
    rcases ih _ h with hmem | hacc
    · rcases hmem with ⟨h2, hm, hw, he⟩
      exact Or.inl ⟨h2, List.mem_cons_of_mem _ hm, hw, he⟩
    · unfold slideStep at hacc
      by_cases hw : is_walkable up hit
      · rw [if_pos hw] at hacc
        exact Or.inl ⟨hit, List.mem_cons_self _ _, hw, hacc⟩
      · rw [if_neg hw] at hacc
        exact Or.inr hacc

theorem slideFold_none_of_no_walkable (up : Vec3) (hits : List ShapeHitData)
    (acc : Option Vec3) (h : ∀ hit ∈ hits, ¬ is_walkable up hit) :
    hits.foldl (slideStep up) acc = acc := by
  induction hits generalizing acc with
  | nil => rfl
  | cons hit rest ih =>
    rw [List.foldl_cons]
    have hstep : slideStep up acc hit = acc := by
      unfold slideStep
      rw [if_neg (h hit (List.mem_cons_self _ _))]
    rw [hstep]
    exact ih _ (fun x hx => h x (List.mem_cons_of_mem _ hx))

theorem tickFloor_cases (inp : TickInputs) (s0 : KCCState) (n : Vec3)
    (h : (movementTick inp s0).floor = some n) :
    (∃ hit ∈ inp.slideHits, is_walkable s0.up hit ∧ dir3New hit.normal1 = some n) ∨
    (∃ mv hit, inp.probeResult = some (mv, hit) ∧ is_walkable s0.up hit ∧
      dir3New hit.normal1 = some n) := by
  rw [movementTick_floor] at h
  unfold probeFloor at h
  by_cases hcond :
      probeRunsCond (jumpStep inp.jumpFired s0).floor (slideFloorFold s0.up inp.slideHits) = true
  · rw [if_pos hcond] at h
    have hnone : slideFloorFold s0.up inp.slideHits = none := by
      simp only [probeRunsCond, Bool.and_eq_true] at hcond
      exact Option.isNone_iff_eq_none.mp hcond.2
    cases hp : inp.probeResult with
    | none =>
      rw [hp] at h
      rw [hnone] at h
      exact absurd h (by simp)
    | some dh =>
      rw [hp] at h
      change (if is_walkable s0.up dh.2 then dir3New dh.2.normal1
        else slideFloorFold s0.up inp.slideHits) = some n at h
      by_cases hw : is_walkable s0.up dh.2
      · rw [if_pos hw] at h
        exact Or.inr ⟨dh.1, dh.2, rfl, hw, h⟩
      · rw [if_neg hw] at h
        rw [hnone] at h
        exact absurd h (by simp)
  · rw [if_neg hcond] at h
    unfold slideFloorFold at h
    rcases slideFold_eq_some s0.up inp.slideHits none n h with hmem | hacc
    · exact Or.inl hmem
    · exact absurd hacc (by simp)

/-- C8: after a tick, footing is `Some n` only if `n` was built from a
    contact classified walkable by `is_walkable` during the slide or during
    the fallback probe; and when no walkable contact was found in either,
    footing is `None`. -/
theorem C8_footing_from_walkable (inp : TickInputs) (s0 : KCCState) :
    (∀ n, (movementTick inp s0).floor = some n →
      (∃ hit ∈ inp.slideHits, is_walkable s0.up hit ∧ dir3New hit.normal1 = some n) ∨
      (∃ mv hit, inp.probeResult = some (mv, hit) ∧ is_walkable s0.up hit ∧
        dir3New hit.normal1 = some n)) ∧
    ((∀ hit ∈ inp.slideHits, ¬ is_walkable s0.up hit) ∧
      (∀ mv hit, inp.probeResult = some (mv, hit) → ¬ is_walkable s0.up hit) →
      (movementTick inp s0).floor = none) := by
  constructor
  · exact fun n h => tickFloor_cases inp s0 n h
  · rintro ⟨h1, h2⟩
    rw [movementTick_floor]
    unfold probeFloor
    have hnone : slideFloorFold s0.up inp.slideHits = none :=
      slideFold_none_of_no_walkable s0.up inp.slideHits none h1
    by_cases hcond :
        probeRunsCond (jumpStep inp.jumpFired s0).floor (slideFloorFold s0.up inp.slideHits) = true
    · rw [if_pos hcond]
      cases hp : inp.probeResult with
      | none => exact hnone
      | some dh =>
        change (if is_walkable s0.up dh.2 then dir3New dh.2.normal1
          else slideFloorFold s0.up inp.slideHits) = none
        rw [if_neg (h2 dh.1 dh.2 (by rw [hp]))]
        exact hnone
    · rw [if_neg hcond]
      exact hnone

/-- Witness for C8: a tick with no contacts at all ends with no footing. -/
theorem C8_witness :
    (movementTick (TickInputs.mk false (0, 0) ⟨0, 0, 0, 1⟩ 1 [] none none)
      (KCCState.mk 0 0 none ⟨0, 1, 0⟩)).floor = none :=
  (C8_footing_from_walkable (TickInputs.mk false (0, 0) ⟨0, 0, 0, 1⟩ 1 [] none none)
    (KCCState.mk 0 0 none ⟨0, 1, 0⟩)).2 ⟨by simp, by simp⟩

/-- C10: when every contact normal reported by the scene query is nonzero
    (normalizable), the `Dir3::new(hit.normal1).unwrap()` construction never
    fails for any reported contact, and any normal stored in footing is unit
    length. -/
theorem C10_unwrap_safe (inp : TickInputs) (s0 : KCCState)
    (h1 : ∀ hit ∈ inp.slideHits, hit.normal1 ≠ 0)
    (h2 : ∀ mv hit, inp.probeResult = some (mv, hit) → hit.normal1 ≠ 0) :
    (∀ hit ∈ inp.slideHits, (dir3New hit.normal1).isSome = true) ∧
    (∀ mv hit, inp.probeResult = some (mv, hit) → (dir3New hit.normal1).isSome = true) ∧
    (∀ n, (movementTick inp s0).floor = some n → n.length = 1) := by
  refine ⟨fun hit hm => dir3New_isSome_of_ne_zero (h1 hit hm),
    fun mv hit hp => dir3New_isSome_of_ne_zero (h2 mv hit hp),
    fun n hn => ?_⟩
  rcases tickFloor_cases inp s0 n hn with ⟨hit, _, _, he⟩ | ⟨mv, hit, _, _, he⟩ <;>
    exact dir3New_unit he

/-- Witness for C10 with one nonzero probe normal. -/
theorem C10_witness :
    (dir3New (ShapeHitData.mk ⟨0, 2, 0⟩).normal1).isSome = true :=
  (C10_unwrap_safe (TickInputs.mk false (0, 0) ⟨0, 0, 0, 1⟩ 1 [] none
      (some (1, ⟨⟨0, 2, 0⟩⟩)))
    (KCCState.mk 0 0 none ⟨0, 1, 0⟩)
    (by simp)
    (by
      rintro mv hit hp
      have hph : hit = ⟨⟨0, 2, 0⟩⟩ := by
        have := (Option.some_injective _ hp).symm
        exact congrArg Prod.snd this
      rw [hph]
      exact Vec3.ne_zero_of_y (by norm_num))).2.1 1 ⟨⟨0, 2, 0⟩⟩ rfl

